import Mathlib

/-!
Shallow embedding of the store engine of `src/src/lib.ts`
(class `Store<T, U>`), a minimal unidirectional state container:
a single model value, a pure transition function, an optional
asynchronous effect step producing follow-up actions, and a set
of zero-argument listeners notified once per dispatch.

JavaScript specifics modelled explicitly:

* A promise continuation (`.then` / `.catch`) never runs during the
  synchronous call that created it; it is queued on the microtask
  queue (FIFO) and runs after the synchronous code completes.  The
  `pending` field of `StoreState` is that queue; `step` runs one
  queued continuation; `runPending` drains the queue with fuel.
* Calling an `async` function executes its body synchronously up to
  the first suspension point, so `runEffectAndProduceNextAction` is
  invoked at line 52 of `dispatch`, before the listener-notification
  call at line 61.  The `Event.effectInvoked` trace entry records
  that invocation point and the arguments passed.
* The chained-dispatch checks `if (action)` (constructor, line 34) and
  `if (nextMsg)` (dispatch, line 54) are JavaScript truthiness tests
  on the resolved value of type `U | undefined`.  The resolution is
  modelled as `Except Err (Option U)` (`Except.error` = rejection,
  `Except.ok none` = resolved to `undefined`), and the truthiness of a
  proper `U` value is the caller-supplied predicate `Config.truthy`.
* `console.error(e)` inside a `.catch` is modelled by appending `e`
  to the `errors` log.
* Listeners are function objects identified by reference; they are
  modelled by natural-number identities.  `Set<() => void>` keeps
  insertion order and collapses duplicates, modelled as a
  duplicate-free `List Nat` (`add` is a no-op on a member; `delete`
  removes the member).
-/

namespace ComponentStore

/-- An error value carried by a rejected promise and logged by
`console.error`. -/
abbrev Err := String

/-- The caller-supplied parameters of a `Store<T, U>`:
`produceNextState` is the pure transition function and
`runEffect` is the eventual resolution of the per-dispatch effect
`runEffectAndProduceNextAction` (source default: resolve to
`undefined`, i.e. `Except.ok none`).  `truthy` gives the JavaScript
truthiness of an action value of type `U`. -/
structure Config (T U : Type) where
  produceNextState : T → U → T
  runEffect : T → U → Except Err (Option U)
  truthy : U → Bool

/-- A queued promise continuation: either the `.then`/`.catch` chain
attached to `runEffectAndProduceNextAction(nextState, action)` at
dispatch line 52 (recording the exact arguments the effect was invoked
with), or the one attached to `initialEffect(initialState)` in the
constructor (line 32), carrying that initial effect function. -/
inductive Pending (T U : Type) where
  | dispatchEffect (state : T) (action : U)
  | initEffect (run : T → Except Err (Option U)) (state : T)

/-- Observable occurrences during the synchronous part of `dispatch`,
in program order: the model replacement (line 51), the invocation of
the effect function (line 52), and each listener call inside
`notifySubscribersOfStateChange` (lines 73-77). -/
inductive Event (T U : Type) where
  | transition (action : U) (newState : T)
  | effectInvoked (state : T) (action : U)
  | notify (listener : Nat)
deriving DecidableEq

/-- The complete observable state of one `Store` instance plus the
microtask queue of its not-yet-run promise continuations and the trace
of events and logged errors produced so far. -/
structure StoreState (T U : Type) where
  state : T
  listeners : List Nat
  pending : List (Pending T U)
  events : List (Event T U)
  errors : List Err

/-- `Store.getModel` (lines 44-46): returns the current model, no side
effects. -/
def getModel {T U : Type} (st : StoreState T U) : T :=
  st.state

/-- `Store.notifySubscribersOfStateChange` (lines 73-77): synchronously
invokes every currently registered listener once, in insertion
order. -/
def notifySubscribersOfStateChange {T U : Type} (st : StoreState T U) : StoreState T U :=
  { st with events := st.events ++ st.listeners.map Event.notify }

/-- `Store.dispatch` (lines 49-62): computes the next state (line 50),
installs it (line 51), invokes `runEffectAndProduceNextAction` with the
new state and the triggering action — queueing its `.then`/`.catch`
continuation on the microtask queue (lines 52-60) — and then notifies
all subscribers (line 61). -/
def dispatch {T U : Type} (cfg : Config T U) (st : StoreState T U) (action : U) :
    StoreState T U :=
  let nextState := cfg.produceNextState st.state action
  notifySubscribersOfStateChange
    { st with
      state := nextState
      events := st.events ++
        [Event.transition action nextState, Event.effectInvoked nextState action]
      pending := st.pending ++ [Pending.dispatchEffect nextState action] }

/-- `Store.subscribeToStateChanges` (lines 65-70): adds the listener to
the `Set` (no duplicate is created if it is already registered) and
returns the unsubscribe closure that deletes it from the `Set`. -/
def subscribeToStateChanges {T U : Type} (st : StoreState T U) (l : Nat) :
    StoreState T U × (StoreState T U → StoreState T U) :=
  ({ st with
      listeners := if l ∈ st.listeners then st.listeners else st.listeners ++ [l] },
   fun s => { s with listeners := s.listeners.erase l })

/-- The `Store` constructor (lines 19-41): installs the initial state
(line 28); if no initial effect is supplied it returns at once
(lines 29-31); otherwise it invokes the initial effect and queues its
`.then`/`.catch` continuation (lines 32-40).  Construction itself is
synchronous: the returned state is available immediately and the queued
continuation has not run. -/
def construct {T U : Type} (_cfg : Config T U)
    (init : T × Option (T → Except Err (Option U))) : StoreState T U :=
  { state := init.1
    listeners := []
    pending :=
      match init.2 with
      | none => []
      | some eff => [Pending.initEffect eff init.1]
    events := []
    errors := [] }

/-- The resolution of a queued effect continuation: a per-dispatch
continuation resolves `runEffectAndProduceNextAction` at the recorded
arguments; an initial-effect continuation resolves the stored initial
effect at the initial state. -/
def resolve {T U : Type} (cfg : Config T U) : Pending T U → Except Err (Option U)
  | Pending.dispatchEffect s a => cfg.runEffect s a
  | Pending.initEffect run s => run s

/-- Runs the continuation at the head of the microtask queue, exactly
as lines 33-37 / 53-57 (the `.then` handler: dispatch the resolved
value iff it is truthy) and lines 38-40 / 58-60 (the `.catch` handler:
log the error and do nothing further).  With an empty queue nothing
happens. -/
def step {T U : Type} (cfg : Config T U) (st : StoreState T U) : StoreState T U :=
  match st.pending with
  | [] => st
  | p :: rest =>
    match resolve cfg p with
    | Except.error e => { st with pending := rest, errors := st.errors ++ [e] }
    | Except.ok none => { st with pending := rest }
    | Except.ok (some u) =>
      if cfg.truthy u then dispatch cfg { st with pending := rest } u
      else { st with pending := rest }

/-- Drains the microtask queue: runs queued continuations (each of
which may enqueue further continuations through a chained dispatch)
until the queue is empty or the fuel runs out. -/
def runPending {T U : Type} (cfg : Config T U) : Nat → StoreState T U → StoreState T U
  | 0, st => st
  | Nat.succ n, st => runPending cfg n (step cfg st)

/-- Dispatches a finite sequence of actions, one `dispatch` call per
action, in order, without running any queued continuation in
between. -/
def dispatchAll {T U : Type} (cfg : Config T U) (st : StoreState T U) (as : List U) :
    StoreState T U :=
  as.foldl (dispatch cfg) st

/-- The same `dispatch` body under a transition function that may
throw, modelled in the exception monad: `Except.error e` is a throw at
line 50.  Since `dispatch` has no `try`/`catch`, a throw there happens
before the assignment at line 51, so the store is left untouched and
the exception reaches the caller, returned here as `some e`. -/
def dispatchExc {T U : Type} (_cfg : Config T U)
    (produceNextStateExc : T → U → Except Err T)
    (st : StoreState T U) (action : U) : StoreState T U × Option Err :=
  match produceNextStateExc st.state action with
  | Except.error e => (st, some e)
  | Except.ok nextState =>
    (notifySubscribersOfStateChange
      { st with
        state := nextState
        events := st.events ++
          [Event.transition action nextState, Event.effectInvoked nextState action]
        pending := st.pending ++ [Pending.dispatchEffect nextState action] },
     none)

/-- Recognizes a per-dispatch effect continuation (as opposed to the
initial-effect continuation queued by the constructor). -/
def IsDispatchEffect {T U : Type} : Pending T U → Prop
  | Pending.dispatchEffect _ _ => True
  | Pending.initEffect _ _ => False

/-- True iff the event is a listener invocation. -/
def isNotifyEvent {T U : Type} : Event T U → Bool
  | Event.notify _ => true
  | _ => false

/-- True iff the event is an invocation of the effect function. -/
def isEffectInvokedEvent {T U : Type} : Event T U → Bool
  | Event.effectInvoked _ _ => true
  | _ => false

/-- Number of listener invocations recorded in a trace. -/
def notifyCount {T U : Type} (evs : List (Event T U)) : Nat :=
  evs.countP isNotifyEvent

/-- True iff every effect invocation in the trace occurs after every
listener invocation, i.e. no listener invocation follows any effect
invocation. -/
def effectAfterNotifies {T U : Type} : List (Event T U) → Bool
  | [] => true
  | e :: rest =>
    (!isEffectInvokedEvent e || rest.all (fun x => !isNotifyEvent x)) &&
      effectAfterNotifies rest

/-- The effect never yields a follow-up action: every resolution is a
rejection, `undefined`, or a falsy value. -/
def NoFollowUp {T U : Type} (cfg : Config T U) : Prop :=
  ∀ s a u, cfg.runEffect s a = Except.ok (some u) → cfg.truthy u = false

/-- Concrete running-sum store configuration whose effect always
resolves to `undefined`; number actions use JavaScript number
truthiness (nonzero). -/
def sumCfg : Config Nat Nat :=
  { produceNextState := fun s a => s + a
    runEffect := fun _ _ => Except.ok none
    truthy := fun n => decide (n ≠ 0) }

/-- Concrete store with two registered listeners. -/
def c2st : StoreState Nat Nat :=
  { state := 0
    listeners := [0, 1]
    pending := []
    events := []
    errors := [] }

/-- Concrete configuration of the chaining scenario: the transition
increments a counter and the effect resolves to a further increment
action while the counter is below 3. -/
def c3cfg : Config Nat Unit :=
  { produceNextState := fun n _ => n + 1
    runEffect := fun n _ => if n < 3 then Except.ok (some ()) else Except.ok none
    truthy := fun _ => true }

/-- The store of the chaining scenario right after the single explicit
dispatch of an increment from counter 0. -/
def c3after : StoreState Nat Unit :=
  dispatch c3cfg (construct c3cfg (0, none)) ()

/-- Configuration used to exhibit the effect-invocation order during a
dispatch: increment transition, effect resolving to `undefined`. -/
def notifyCfg : Config Nat Unit :=
  { produceNextState := fun n _ => n + 1
    runEffect := fun _ _ => Except.ok none
    truthy := fun _ => true }

/-- An initial effect resolving to the action `5`. -/
def c6eff : Nat → Except Err (Option Nat) := fun _ => Except.ok (some 5)

/-- A transition function that always throws. -/
def c7trans : Nat → Nat → Except Err Nat := fun _ _ => Except.error "boom"

/-- Configuration whose per-dispatch effect always rejects. -/
def c8cfg : Config Nat Nat :=
  { produceNextState := fun s a => s + a
    runEffect := fun _ _ => Except.error "effect failure"
    truthy := fun n => decide (n ≠ 0) }

/-- A store with one queued rejecting-effect continuation. -/
def c8st : StoreState Nat Nat :=
  { state := 2
    listeners := []
    pending := [Pending.dispatchEffect 2 1]
    events := []
    errors := [] }

/-- Configuration whose effect resolves to the number 0, a falsy
JavaScript value (number truthiness: nonzero). -/
def c10cfg : Config Nat Nat :=
  { produceNextState := fun s a => s + a
    runEffect := fun _ _ => Except.ok (some 0)
    truthy := fun n => decide (n ≠ 0) }

/-- A store with one queued continuation about to resolve to the falsy
action 0. -/
def c10st : StoreState Nat Nat :=
  { state := 7
    listeners := []
    pending := [Pending.dispatchEffect 7 1]
    events := []
    errors := [] }

theorem dispatch_state {T U : Type} (cfg : Config T U) (st : StoreState T U) (a : U) :
    (dispatch cfg st a).state = cfg.produceNextState st.state a := rfl

theorem dispatch_listeners {T U : Type} (cfg : Config T U) (st : StoreState T U) (a : U) :
    (dispatch cfg st a).listeners = st.listeners := rfl

theorem dispatch_pending {T U : Type} (cfg : Config T U) (st : StoreState T U) (a : U) :
    (dispatch cfg st a).pending =
      st.pending ++ [Pending.dispatchEffect (cfg.produceNextState st.state a) a] := rfl

theorem dispatch_events {T U : Type} (cfg : Config T U) (st : StoreState T U) (a : U) :
    (dispatch cfg st a).events =
      st.events ++
        [Event.transition a (cfg.produceNextState st.state a),
          Event.effectInvoked (cfg.produceNextState st.state a) a] ++
        st.listeners.map Event.notify := rfl

theorem dispatch_errors {T U : Type} (cfg : Config T U) (st : StoreState T U) (a : U) :
    (dispatch cfg st a).errors = st.errors := rfl

theorem step_preserves_state_of_noFollowUp {T U : Type} (cfg : Config T U)
    (st : StoreState T U) (hf : NoFollowUp cfg)
    (hp : ∀ p ∈ st.pending, IsDispatchEffect p) :
    (step cfg st).state = st.state ∧
      ∀ p ∈ (step cfg st).pending, IsDispatchEffect p := by
  match hpe : st.pending with
  | [] =>
    have hstep : step cfg st = st := by simp [step, hpe]
    rw [hstep]
    exact ⟨rfl, hp⟩
  | Pending.initEffect run s :: rest =>
    have hmem : Pending.initEffect run s ∈ st.pending := by
      rw [hpe]; exact List.mem_cons_self _ _
    exact (hp _ hmem).elim
  | Pending.dispatchEffect s a :: rest =>
    have hrest : ∀ q ∈ rest, IsDispatchEffect q := fun q hq =>
      hp q (by rw [hpe]; exact List.mem_cons_of_mem _ hq)
    match hr : cfg.runEffect s a with
    | Except.error e =>
      have hstep : step cfg st = { st with pending := rest, errors := st.errors ++ [e] } := by
        simp [step, hpe, resolve, hr]
      rw [hstep]
      exact ⟨rfl, hrest⟩
    | Except.ok none =>
      have hstep : step cfg st = { st with pending := rest } := by
        simp [step, hpe, resolve, hr]
      rw [hstep]
      exact ⟨rfl, hrest⟩
    | Except.ok (some u) =>
      have ht := hf s a u hr
      have hstep : step cfg st = { st with pending := rest } := by
        simp [step, hpe, resolve, hr, ht]
      rw [hstep]
      exact ⟨rfl, hrest⟩

theorem runPending_preserves_state_of_noFollowUp {T U : Type} (cfg : Config T U)
    (hf : NoFollowUp cfg) :
    ∀ (fuel : Nat) (st : StoreState T U),
      (∀ p ∈ st.pending, IsDispatchEffect p) →
      (runPending cfg fuel st).state = st.state
  | 0, st, _ => rfl
  | Nat.succ n, st, hp => by
    obtain ⟨h1, h2⟩ := step_preserves_state_of_noFollowUp cfg st hf hp
    calc (runPending cfg (Nat.succ n) st).state
        = (runPending cfg n (step cfg st)).state := rfl
      _ = (step cfg st).state :=
          runPending_preserves_state_of_noFollowUp cfg hf n (step cfg st) h2
      _ = st.state := h1

theorem dispatchAll_state {T U : Type} (cfg : Config T U) :
    ∀ (as : List U) (st : StoreState T U),
      (dispatchAll cfg st as).state = as.foldl cfg.produceNextState st.state
  | [], _ => rfl
  | a :: as, st => by
    simpa [dispatchAll, List.foldl] using dispatchAll_state cfg as (dispatch cfg st a)

theorem dispatchAll_listeners {T U : Type} (cfg : Config T U) :
    ∀ (as : List U) (st : StoreState T U),
      (dispatchAll cfg st as).listeners = st.listeners
  | [], _ => rfl
  | a :: as, st => by
    simpa [dispatchAll, List.foldl] using
      dispatchAll_listeners cfg as (dispatch cfg st a)

theorem dispatchAll_pending_isDispatchEffect {T U : Type} (cfg : Config T U) :
    ∀ (as : List U) (st : StoreState T U),
      (∀ p ∈ st.pending, IsDispatchEffect p) →
      ∀ p ∈ (dispatchAll cfg st as).pending, IsDispatchEffect p
  | [], _, hp => hp
  | a :: as, st, hp => by
    refine dispatchAll_pending_isDispatchEffect cfg as (dispatch cfg st a) ?_
    intro p hmem
    rw [dispatch_pending] at hmem
    rcases List.mem_append.mp hmem with h | h
    · exact hp p h
    · simp only [List.mem_singleton] at h
      subst h
      trivial

/-- C1: for every initial model and every finite sequence of actions
passed to `dispatch`, when the effect function never produces a
follow-up action (every resolution is a rejection, `undefined`, or
falsy), `getModel()` after the sequence — even after draining any
amount of the microtask queue — equals the left fold of the transition
function over the initial model and the action sequence. -/
theorem c1_getModel_eq_foldl {T U : Type} (cfg : Config T U) (init : T)
    (as : List U) (fuel : Nat) (hf : NoFollowUp cfg) :
    getModel (runPending cfg fuel (dispatchAll cfg (construct cfg (init, none)) as)) =
      as.foldl cfg.produceNextState init := by
  have hbase : ∀ p ∈ (construct cfg (init, none)).pending, IsDispatchEffect p := by
    intro p hmem
    simp [construct] at hmem
  have hall := dispatchAll_pending_isDispatchEffect cfg as (construct cfg (init, none)) hbase
  have h1 := runPending_preserves_state_of_noFollowUp cfg hf fuel
    (dispatchAll cfg (construct cfg (init, none)) as) hall
  have h2 := dispatchAll_state cfg as (construct cfg (init, none))
  unfold getModel
  rw [h1, h2]
  rfl

theorem c1_getModel_eq_foldl_witness :
    NoFollowUp sumCfg ∧
      getModel
          (runPending sumCfg 5 (dispatchAll sumCfg (construct sumCfg (0, none)) [1, 2, 3])) =
        [1, 2, 3].foldl sumCfg.produceNextState 0 := by
  have hf : NoFollowUp sumCfg := by
    intro s a u hu
    simp [sumCfg] at hu
  exact ⟨hf, c1_getModel_eq_foldl sumCfg 0 [1, 2, 3] 5 hf⟩

/-- C2: each `dispatch` call invokes, synchronously before it returns,
every listener registered at that moment exactly once (listener sets
are duplicate-free), and over a sequence of dispatches the total
number of listener invocations recorded is the number of dispatches
times the number of registered listeners. -/
theorem c2_listener_invocations {T U : Type} [DecidableEq T] [DecidableEq U]
    (cfg : Config T U) (st : StoreState T U) (a : U) (as : List U)
    (h : st.listeners.Nodup) :
    (∀ l ∈ st.listeners,
        (((dispatch cfg st a).events.drop st.events.length).count (Event.notify l)) = 1) ∧
      notifyCount (dispatchAll cfg st as).events =
        notifyCount st.events + as.length * st.listeners.length := by
  constructor
  · intro l hl
    have hinj : Function.Injective (Event.notify (T := T) (U := U)) := by
      intro x y hxy
      cases hxy
      rfl
    rw [dispatch_events, List.append_assoc, List.drop_left]
    rw [List.count_append]
    have h0 : ([Event.transition a (cfg.produceNextState st.state a),
        Event.effectInvoked (cfg.produceNextState st.state a) a] :
          List (Event T U)).count (Event.notify l) = 0 := by
      simp [List.count_cons]
    rw [h0]
    rw [List.count_map_of_injective _ _ hinj]
    exact Nat.zero_add _ ▸ (Nat.zero_add ((st.listeners).count l)) ▸
      (by rw [Nat.zero_add]; exact List.count_eq_one_of_mem h hl)
  · induction as generalizing st with
    | nil => simp [dispatchAll]
    | cons b bs ih =>
      have hstep : notifyCount (dispatch cfg st b).events =
          notifyCount st.events + st.listeners.length := by
        rw [dispatch_events]
        unfold notifyCount
        rw [List.countP_append, List.countP_append]
        simp [isNotifyEvent, List.countP_map, Function.comp]
      have hlist := dispatch_listeners cfg st b
      have hd : dispatchAll cfg st (b :: bs) = dispatchAll cfg (dispatch cfg st b) bs := rfl
      rw [hd, ih (dispatch cfg st b) (by rw [hlist]; exact h), hstep, hlist,
        List.length_cons]
      ring

theorem c2_listener_invocations_witness :
    ([0, 1] : List Nat).Nodup ∧
      ((∀ l ∈ c2st.listeners,
          (((dispatch sumCfg c2st 7).events.drop c2st.events.length).count
              (Event.notify l)) = 1) ∧
        notifyCount (dispatchAll sumCfg c2st [4, 5, 6]).events =
          notifyCount c2st.events + [4, 5, 6].length * c2st.listeners.length) := by
  have h : c2st.listeners.Nodup := by decide
  exact ⟨by decide, c2_listener_invocations sumCfg c2st 7 [4, 5, 6] h⟩

/-- C3: when a queued effect continuation resolves to a (truthy)
action, running it dispatches exactly that action — the chaining is an
ordinary recursive call with no depth limit — and in the concrete
scenario (increment transition, effect re-dispatching increment while
the counter is below 3) one dispatch of increment from counter 0
settles, after draining the microtask queue, at counter 3 with an
empty queue, i.e. no further effect output. -/
theorem c3_effect_chaining {T U : Type} (cfg : Config T U) (st : StoreState T U)
    (s : T) (a u : U) (rest : List (Pending T U))
    (hp : st.pending = Pending.dispatchEffect s a :: rest)
    (hr : cfg.runEffect s a = Except.ok (some u))
    (ht : cfg.truthy u = true) :
    step cfg st = dispatch cfg { st with pending := rest } u ∧
      getModel (runPending c3cfg 8 c3after) = 3 ∧
      (runPending c3cfg 8 c3after).pending = [] := by
  refine ⟨?_, rfl, rfl⟩
  simp [step, hp, resolve, hr, ht]

theorem c3_effect_chaining_witness :
    c3after.pending = Pending.dispatchEffect 1 () :: [] ∧
      c3cfg.runEffect 1 () = Except.ok (some ()) ∧
      c3cfg.truthy () = true ∧
      (step c3cfg c3after = dispatch c3cfg { c3after with pending := [] } () ∧
        getModel (runPending c3cfg 8 c3after) = 3 ∧
        (runPending c3cfg 8 c3after).pending = []) :=
  ⟨rfl, rfl, rfl, c3_effect_chaining c3cfg c3after 1 () () [] rfl rfl rfl⟩

/-- C4 counterexample: the claim states the effect function is invoked
only after all registered listeners have been notified.  In the source,
`dispatch` invokes `runEffectAndProduceNextAction` at line 52 and calls
`notifySubscribersOfStateChange` only afterwards at line 61, so with
one registered listener the dispatch trace contains the effect
invocation strictly before the listener notification: the predicate
`effectAfterNotifies` (no notification occurs after any effect
invocation) is false on that trace. -/
theorem c4_counterexample :
    effectAfterNotifies
        ((dispatch notifyCfg
            (subscribeToStateChanges (construct notifyCfg (0, none)) 0).1 ()).events) =
      false := rfl

/-- C4 (amended): during a dispatch the effect function is invoked
after the model has been replaced but before listeners are notified
(the synchronous trace is: transition, then effect invocation, then
the listener notifications); the resolution of the effect and any
chained dispatch are only queued as a microtask-queue continuation, so
they run strictly after the synchronous part of `dispatch` (model
replacement and listener notification) has completed. -/
theorem c4_effect_invocation_order {T U : Type} (cfg : Config T U)
    (st : StoreState T U) (a : U) :
    (dispatch cfg st a).events =
      st.events ++
        [Event.transition a (cfg.produceNextState st.state a),
          Event.effectInvoked (cfg.produceNextState st.state a) a] ++
        st.listeners.map Event.notify ∧
      (dispatch cfg st a).pending =
        st.pending ++ [Pending.dispatchEffect (cfg.produceNextState st.state a) a] :=
  ⟨rfl, rfl⟩

/-- C5: the effect function receives exactly the post-transition model
— the value computed by the transition function and installed as the
current state of the dispatch — together with the triggering action of
that same dispatch: the queued continuation records precisely those
two arguments, and the effect-invocation trace entry carries the
same. -/
theorem c5_effect_receives_current_state {T U : Type} (cfg : Config T U)
    (st : StoreState T U) (a : U) :
    (dispatch cfg st a).state = cfg.produceNextState st.state a ∧
      (dispatch cfg st a).pending =
        st.pending ++ [Pending.dispatchEffect (dispatch cfg st a).state a] ∧
      Event.effectInvoked (dispatch cfg st a).state a ∈ (dispatch cfg st a).events := by
  refine ⟨rfl, rfl, ?_⟩
  rw [dispatch_state, dispatch_events]
  simp

/-- C6: construction is synchronous — the initial model is installed
and the initial-effect continuation is only queued, so `getModel()`
right after construction returns the initial model; once that
continuation runs and the initial effect has resolved to a (truthy)
action, the action's transition is visible in `getModel()` with no
explicit dispatch call by the caller. -/
theorem c6_construct_initial_effect {T U : Type} (cfg : Config T U) (init : T)
    (eff : T → Except Err (Option U)) (u : U)
    (h1 : eff init = Except.ok (some u)) (h2 : cfg.truthy u = true) :
    getModel (construct cfg (init, some eff)) = init ∧
      (construct cfg (init, some eff)).pending = [Pending.initEffect eff init] ∧
      getModel (step cfg (construct cfg (init, some eff))) =
        cfg.produceNextState init u := by
  refine ⟨rfl, rfl, ?_⟩
  simp [step, construct, resolve, h1, h2, dispatch, notifySubscribersOfStateChange,
    getModel]

theorem c6_construct_initial_effect_witness :
    c6eff 0 = Except.ok (some 5) ∧ sumCfg.truthy 5 = true ∧
      (getModel (construct sumCfg (0, some c6eff)) = 0 ∧
        (construct sumCfg (0, some c6eff)).pending = [Pending.initEffect c6eff 0] ∧
        getModel (step sumCfg (construct sumCfg (0, some c6eff))) =
          sumCfg.produceNextState 0 5) :=
  ⟨rfl, rfl, c6_construct_initial_effect sumCfg 0 c6eff 5 rfl rfl⟩

/-- C7: when the transition function throws, the exception propagates
synchronously to the caller of `dispatch` and the store is left
untouched — no catch, no fallback model: the throw happens at line 50
before the assignment at line 51, so no state replacement, no queued
effect and no notification occur. -/
theorem c7_transition_throw_propagates {T U : Type} (cfg : Config T U)
    (t : T → U → Except Err T) (st : StoreState T U) (a : U) (e : Err)
    (h : t st.state a = Except.error e) :
    dispatchExc cfg t st a = (st, some e) := by
  simp [dispatchExc, h]

theorem c7_transition_throw_propagates_witness :
    c7trans (construct sumCfg (0, none)).state 1 = Except.error "boom" ∧
      dispatchExc sumCfg c7trans (construct sumCfg (0, none)) 1 =
        (construct sumCfg (0, none), some "boom") :=
  ⟨rfl,
    c7_transition_throw_propagates sumCfg c7trans (construct sumCfg (0, none)) 1
      "boom" rfl⟩

/-- C8: when an initial or per-dispatch effect fails (its continuation
resolves to a rejection), the failure is caught right there by the
`.catch` handler, logged, and treated as absence of a follow-up
action: the model, the listeners and the trace are unchanged, nothing
is re-thrown into the `dispatch` or constructor call that queued the
effect, and a subsequent dispatch still performs its transition
normally. -/
theorem c8_effect_failure_swallowed {T U : Type} (cfg : Config T U)
    (st : StoreState T U) (p : Pending T U) (rest : List (Pending T U)) (e : Err)
    (a : U) (hp : st.pending = p :: rest) (hr : resolve cfg p = Except.error e) :
    step cfg st = { st with pending := rest, errors := st.errors ++ [e] } ∧
      (dispatch cfg (step cfg st) a).state = cfg.produceNextState st.state a := by
  have hstep : step cfg st = { st with pending := rest, errors := st.errors ++ [e] } := by
    simp [step, hp, hr]
  exact ⟨hstep, by rw [dispatch_state, hstep]⟩

theorem c8_effect_failure_swallowed_witness :
    c8st.pending = Pending.dispatchEffect 2 1 :: [] ∧
      resolve c8cfg (Pending.dispatchEffect 2 1) = Except.error "effect failure" ∧
      (step c8cfg c8st =
          { c8st with pending := [], errors := c8st.errors ++ ["effect failure"] } ∧
        (dispatch c8cfg (step c8cfg c8st) 3).state = c8cfg.produceNextState c8st.state 3) :=
  ⟨rfl, rfl,
    c8_effect_failure_swallowed c8cfg c8st (Pending.dispatchEffect 2 1) [] "effect failure"
      3 rfl rfl⟩

/-- C9: the unsubscribe handle returned at registration removes the
listener, so no notification of it occurs in any subsequent dispatch's
notification pass; applying the handle a second time is a no-op, and
listeners other than the removed one stay registered. -/
theorem c9_unsubscribe {T U : Type} (cfg : Config T U) (st0 s : StoreState T U)
    (l l2 : Nat) (a : U) (h : s.listeners.Nodup) :
    Event.notify l ∉
        ((dispatch cfg ((subscribeToStateChanges st0 l).2 s) a).events.drop
          (((subscribeToStateChanges st0 l).2 s).events.length)) ∧
      (subscribeToStateChanges st0 l).2 ((subscribeToStateChanges st0 l).2 s) =
        (subscribeToStateChanges st0 l).2 s ∧
      (l2 ≠ l →
        (l2 ∈ ((subscribeToStateChanges st0 l).2 s).listeners ↔ l2 ∈ s.listeners)) := by
  have hni : l ∉ s.listeners.erase l := fun hmem =>
    absurd ((h.mem_erase_iff).mp hmem).1 (by simp)
  refine ⟨?_, ?_, ?_⟩
  · intro hmem
    rw [dispatch_events, List.append_assoc, List.drop_left, List.mem_append] at hmem
    rcases hmem with h1 | h1
    · simp at h1
    · rw [List.mem_map] at h1
      obtain ⟨x, hx, hxe⟩ := h1
      have hxl : x = l := by injection hxe
      subst hxl
      exact hni hx
  · have he : (s.listeners.erase l).erase l = s.listeners.erase l :=
      List.erase_of_not_mem hni
    show ({ s with listeners := (s.listeners.erase l).erase l } : StoreState T U) =
      { s with listeners := s.listeners.erase l }
    rw [he]
  · intro hne
    show l2 ∈ s.listeners.erase l ↔ l2 ∈ s.listeners
    exact List.mem_erase_of_ne hne

theorem c9_unsubscribe_witness :
    c2st.listeners.Nodup ∧
      (Event.notify 0 ∉
          ((dispatch sumCfg ((subscribeToStateChanges c2st 0).2 c2st) 3).events.drop
            (((subscribeToStateChanges c2st 0).2 c2st).events.length)) ∧
        (subscribeToStateChanges c2st 0).2 ((subscribeToStateChanges c2st 0).2 c2st) =
          (subscribeToStateChanges c2st 0).2 c2st ∧
        (1 ≠ 0 →
          (1 ∈ ((subscribeToStateChanges c2st 0).2 c2st).listeners ↔
            1 ∈ c2st.listeners))) :=
  ⟨by decide, c9_unsubscribe sumCfg c2st c2st 0 1 3 (by decide)⟩

/-- C10: the chained-dispatch decision is a truthiness test on the
resolved value, so an effect resolving to a falsy action (for number
actions, 0) dispatches nothing, exactly as resolving to `undefined`:
the queue entry is consumed with no transition, no notification and no
logged error.  The general part covers both initial-effect and
per-dispatch continuations; the concrete part runs a store whose
effect resolved to the number 0. -/
theorem c10_falsy_not_dispatched {T U : Type} (cfg : Config T U)
    (st : StoreState T U) (p : Pending T U) (rest : List (Pending T U)) (u : U)
    (hp : st.pending = p :: rest) (hr : resolve cfg p = Except.ok (some u))
    (ht : cfg.truthy u = false) :
    step cfg st = { st with pending := rest } ∧
      getModel (step c10cfg c10st) = 7 ∧
      (step c10cfg c10st).pending = [] ∧
      (step c10cfg c10st).events = [] := by
  refine ⟨?_, rfl, rfl, rfl⟩
  simp [step, hp, hr, ht]

theorem c10_falsy_not_dispatched_witness :
    c10st.pending = Pending.dispatchEffect 7 1 :: [] ∧
      resolve c10cfg (Pending.dispatchEffect 7 1) = Except.ok (some 0) ∧
      c10cfg.truthy 0 = false ∧
      (step c10cfg c10st = { c10st with pending := [] } ∧
        getModel (step c10cfg c10st) = 7 ∧
        (step c10cfg c10st).pending = [] ∧
        (step c10cfg c10st).events = []) :=
  ⟨rfl, rfl, rfl,
    c10_falsy_not_dispatched c10cfg c10st (Pending.dispatchEffect 7 1) [] 0 rfl rfl rfl⟩

end ComponentStore
